import Mathlib

/-!
Verification development for the AgenticAI_Bootcamp2025 repository.

The repository consists of four configuration-and-invocation scripts over
third-party agent frameworks.  The parts of those scripts that are original
code (the Admin termination lambda, the startup credential checks, the
Streamlit submit handler) are embedded directly from the source below.
The bounded multi-agent turn-taking loop that the scripts configure lives
inside the imported frameworks; following the specification, it is modelled
here from the spec text (sections 2-4) and instantiated with the concrete
configurations found in the scripts.
-/

/- ===================================================================
   Part 1: direct source embeddings
   =================================================================== -/

/-- Python str.rstrip with no argument: remove trailing whitespace
characters.  Modelled on the character list of the string. -/
def pyRstrip (s : String) : String :=
  ⟨(s.data.reverse.dropWhile Char.isWhitespace).reverse⟩

/-- Python str.strip with no argument: remove leading and trailing
whitespace characters. -/
def pyStrip (s : String) : String :=
  ⟨((s.data.dropWhile Char.isWhitespace).reverse.dropWhile Char.isWhitespace).reverse⟩

/-- Python str.endswith: the second string is a suffix of the first
(case-sensitive, exact characters). -/
def pyEndsWith (s suff : String) : Bool :=
  suff.data.isSuffixOf s.data

/-- Source: Agentic Frameworks/Autogen/autogen_groupchat.py, line 27.
The Admin stop predicate is the lambda taking a message dict x and
computing: x.get of the content key with default empty string, then
rstrip, then endswith applied to the TERMINATE token.  A message is a
dict whose content key may be absent, hence the Option String
argument. -/
def is_termination_msg (content : Option String) : Bool :=
  pyEndsWith (pyRstrip (content.getD "")) "TERMINATE"

/-- Python truthiness of an os.getenv result: None and the empty string
are falsy, every other string is truthy. -/
def pyTruthy : Option String → Bool
  | none => false
  | some s => !s.data.isEmpty

/-- Source: Agentic Frameworks/CrewAI/crewai_toolusage.py, lines 19-22:
if not os.getenv TAVILY_API_KEY or not os.getenv GROQ_API_KEY then
print a fatal error and exit().  Returns true when the script exits
before any turn executes. -/
def toolusage_exits_at_startup (env : String → Option String) : Bool :=
  !pyTruthy (env "TAVILY_API_KEY") || !pyTruthy (env "GROQ_API_KEY")

/-- The llm_config entry built in autogen_groupchat.py lines 7-14. -/
structure LlmConfigEntry where
  model : String
  api_key : Option String
  api_type : String
deriving DecidableEq

/-- Source: Agentic Frameworks/Autogen/autogen_groupchat.py, lines 5-18.
The try block wraps load_dotenv and the construction of the llm_config
dictionary.  os.getenv returns None (it never raises) when the key is
missing, and a dict literal never raises, so the except branch - the only
path that exits - is unreachable on a missing credential: startup
succeeds with api_key = none. -/
def autogen_startup (env : String → Option String) : Except String LlmConfigEntry :=
  Except.ok ⟨"llama-3.1-8b-instant", env "GROQ_API_KEY", "groq"⟩

/-- Whether autogen_groupchat.py exits before any turn: only via the
except branch of its try block. -/
def autogen_exits_at_startup (env : String → Option String) : Bool :=
  match autogen_startup env with
  | Except.error _ => true
  | Except.ok _ => false

/-- Source: Agentic Frameworks/CrewAI/crewai_agent.py, lines 7-10:
GROQ_API_KEY = os.environ.get GROQ_API_KEY.  The value is bound
unconditionally; no validation or exit exists anywhere before kickoff. -/
def crewai_agent_groq_key (env : String → Option String) : Option String :=
  env "GROQ_API_KEY"

/-- Whether crewai_agent.py exits before any turn.  The script contains
no credential check and no conditional exit, so this is constantly
false whatever the environment holds. -/
def crewai_agent_exits_at_startup (env : String → Option String) : Bool :=
  (crewai_agent_groq_key env).isSome && false

/- ===================================================================
   Part 2: the Streamlit front end
   =================================================================== -/

/-- The JSON body of a backend reply as the front end reads it: it may
carry an error key, otherwise its payload is rendered as markdown.
Source: streamlit_frontend.py lines 29-35. -/
structure ResponseData where
  errorField : Option String
  payload : String
deriving DecidableEq

/-- Outcome of the requests.post call in streamlit_frontend.py line 28:
either the call raises (endpoint unreachable) or an HTTP response with a
status code and a body comes back. -/
inductive PostOutcome where
  | connectionFailure (msg : String)
  | httpResponse (status : Nat) (body : ResponseData)
deriving DecidableEq

/-- What the page ends up showing after a click on Submit. -/
inductive Rendered where
  | nothing
  | uncaught (msg : String)
  | errorBox (msg : String)
  | agentOutput (payload : String)
deriving DecidableEq

/-- Source: streamlit_frontend.py lines 20-35, the Submit button handler.
The first component records whether requests.post was invoked at all;
the second what the page displays.  if user_query.strip() guards the
whole body; the response is only inspected when status_code == 200, in
which case an error key is shown with st.error and anything else with
st.markdown; a non-200 status falls through with no else branch, and an
exception from requests.post is uncaught. -/
def submit_handler (user_query : String) (outcome : PostOutcome) : Bool × Rendered :=
  if (pyStrip user_query).data.isEmpty then (false, Rendered.nothing)
  else
    (true,
      match outcome with
      | PostOutcome.connectionFailure m => Rendered.uncaught m
      | PostOutcome.httpResponse status body =>
          if status = 200 then
            match body.errorField with
            | some e => Rendered.errorBox e
            | none => Rendered.agentOutput body.payload
          else Rendered.nothing)

/- ===================================================================
   Theorems for the directly embedded claims: C2, C5, C6, C10
   =================================================================== -/

/-- C2: the Admin stop predicate returns true exactly when the message
content, after trimming trailing whitespace, ends with the token
TERMINATE - that is, when the trimmed character sequence decomposes as
some head followed by the characters of TERMINATE.  It is
case-sensitive, treats missing content as the empty string, and
returns false on every other content. -/
theorem admin_stop_predicate_spec :
    (∀ c : String, is_termination_msg (some c) = true ↔
      ∃ t : List Char, (pyRstrip c).data = t ++ "TERMINATE".data) ∧
    is_termination_msg (some "done TERMINATE") = true ∧
    is_termination_msg (some "done TERMINATE   ") = true ∧
    is_termination_msg (some "done terminate") = false ∧
    is_termination_msg (some "TERMINATE now") = false ∧
    is_termination_msg none = false := by
  refine ⟨?_, ?_, ?_, ?_, ?_, ?_⟩
  · intro c
    rw [is_termination_msg, pyEndsWith, List.isSuffixOf_iff_suffix]
    constructor
    · rintro ⟨t, ht⟩
      exact ⟨t, ht.symm⟩
    · rintro ⟨t, ht⟩
      exact ⟨t, ht.symm⟩
  all_goals decide

/-- An environment with no variables set at all: in particular the
required GROQ_API_KEY credential is missing. -/
def emptyEnv : String → Option String := fun _ => none

/-- C5 counterexample: with every credential missing, the Autogen
group-chat script and the CrewAI agent script do not exit before a turn
executes; only the CrewAI tool-usage script does.  This refutes the
claim that a missing API key aborts startup in each of the three
scripts. -/
theorem missing_key_three_scripts_cex :
    autogen_exits_at_startup emptyEnv = false ∧
    crewai_agent_exits_at_startup emptyEnv = false ∧
    toolusage_exits_at_startup emptyEnv = true :=
  ⟨rfl, rfl, rfl⟩

/-- C5 amended: only crewai_toolusage.py checks credentials at startup;
whenever GROQ_API_KEY (or TAVILY_API_KEY) is missing or empty in the
environment, that script exits before any turn executes. -/
theorem toolusage_fails_fast (env : String → Option String)
    (h : pyTruthy (env "GROQ_API_KEY") = false) :
    toolusage_exits_at_startup env = true := by
  simp [toolusage_exits_at_startup, h]

/-- C5 witness: the fail-fast check fires on the empty environment. -/
theorem toolusage_fails_fast_witness :
    toolusage_exits_at_startup emptyEnv = true :=
  toolusage_fails_fast emptyEnv rfl

/-- C6 counterexample: on a non-success HTTP status the front end sends
the request but displays nothing at all - no error is surfaced to the
user, refuting the claim that every failure path produces a reported
reason. -/
theorem frontend_http_error_silent_cex :
    submit_handler "hi" (PostOutcome.httpResponse 500 ⟨none, ""⟩) =
      (true, Rendered.nothing) := by
  decide

/-- C6 amended: the only surfaced error path is a 200 response whose
JSON body carries an error key, shown via st.error; a non-success
status displays nothing, and an unreachable endpoint propagates the
requests exception uncaught. -/
theorem frontend_error_display_paths (q : String) (outcome : PostOutcome)
    (hq : (pyStrip q).data.isEmpty = false) :
    (∀ e b, outcome = PostOutcome.httpResponse 200 ⟨some e, b⟩ →
      (submit_handler q outcome).2 = Rendered.errorBox e) ∧
    (∀ s b, outcome = PostOutcome.httpResponse s b → s ≠ 200 →
      (submit_handler q outcome).2 = Rendered.nothing) ∧
    (∀ m, outcome = PostOutcome.connectionFailure m →
      (submit_handler q outcome).2 = Rendered.uncaught m) := by
  refine ⟨?_, ?_, ?_⟩
  · rintro e b rfl
    simp [submit_handler, hq]
  · rintro s b rfl hs
    simp [submit_handler, hq, hs]
  · rintro m rfl
    simp [submit_handler, hq]

/-- C6 witness: a 200 reply carrying an error key is surfaced via the
error box. -/
theorem frontend_error_display_paths_witness :
    (submit_handler "hi" (PostOutcome.httpResponse 200 ⟨some "boom", ""⟩)).2 =
      Rendered.errorBox "boom" :=
  (frontend_error_display_paths "hi" (PostOutcome.httpResponse 200 ⟨some "boom", ""⟩)
    (by decide)).1 "boom" "" rfl

/-- C10: a request is posted exactly when the stripped query is
non-empty, and on an empty or all-whitespace query the handler posts
nothing and renders nothing. -/
theorem empty_query_sends_no_request (q : String) (outcome : PostOutcome) :
    ((submit_handler q outcome).1 = !(pyStrip q).data.isEmpty) ∧
    ((pyStrip q).data.isEmpty = true → submit_handler q outcome = (false, Rendered.nothing)) := by
  constructor
  · by_cases h : (pyStrip q).data.isEmpty <;> simp [submit_handler, h]
  · intro h
    simp [submit_handler, h]

/-- C10 witness: an all-whitespace query posts nothing and shows
nothing. -/
theorem empty_query_sends_no_request_witness :
    submit_handler "   " (PostOutcome.connectionFailure "down") =
      (false, Rendered.nothing) :=
  (empty_query_sends_no_request "   " (PostOutcome.connectionFailure "down")).2 (by decide)

/- ===================================================================
   Part 3: the bounded multi-agent turn-taking loop

   Modelled from the spec: the scripts only configure this loop (agents,
   max_round = 7, allow_repeat_speaker = False, the termination lambda,
   the two-stage crew); the loop itself lives inside the imported
   frameworks, so it is translated here from spec sections 2-4.
   =================================================================== -/

/-- Modelled from the spec (section 3, Message): a transcript entry with
its sender (as an index into the participant list), its content, and
its append order. -/
structure Message where
  sender : Nat
  content : String
  order : Nat
deriving DecidableEq

/-- Modelled from the spec (section 4.1, Participant): a named entity
with a response function over the transcript so far (which may fail,
e.g. on a network error) and an optional stop predicate on a candidate
message content. -/
structure Participant where
  name : String
  respond : List Message → Except String String
  stopPred : Option (String → Bool)

/-- Modelled from the spec (section 3, ConversationState): the ordered
transcript, the turn count, the last speaker, and the terminated flag. -/
structure ConversationState where
  transcript : List Message
  turn_count : Nat
  last_speaker : Option Nat
  terminated : Bool
deriving DecidableEq

/-- The empty conversation state the loop starts from. -/
def initState : ConversationState := ⟨[], 0, none, false⟩

/-- Modelled from the spec (section 4.2): round-robin without immediate
repeat over n participants - cycle in a fixed order, skipping a
participant if selecting them would repeat the immediately preceding
speaker (mirrors allow_repeat_speaker = False in
autogen_groupchat.py). -/
def roundRobinSelect (n turn : Nat) (last : Option Nat) : Nat :=
  if last = some (turn % n) then (turn % n + 1) % n else turn % n

/-- Step (d) of the turn-loop contract: evaluate every participant
stop predicate against the new message content. -/
def anyStop (ps : List Participant) (content : String) : Bool :=
  ps.any fun p =>
    match p.stopPred with
    | none => false
    | some f => f content

/-- Result of one turn: either the loop continues in a new state, or it
halts in a final state with a terminal reason. -/
inductive StepOutcome where
  | next (st : ConversationState)
  | halt (st : ConversationState) (reason : String)
deriving DecidableEq

/-- The state carried by a step outcome. -/
def StepOutcome.state : StepOutcome → ConversationState
  | .next st => st
  | .halt st _ => st

/-- Stop-predicate / append part of a turn: append the produced message;
if some stop predicate fires on it the loop terminates with reason
stop-predicate, otherwise it continues. -/
def appendOutcome (ps : List Participant) (st : ConversationState) (sel : Nat)
    (c : String) : StepOutcome :=
  if anyStop ps c then
    .halt ⟨st.transcript ++ [⟨sel, c, st.turn_count⟩], st.turn_count + 1, some sel, true⟩
      "stop-predicate"
  else
    .next ⟨st.transcript ++ [⟨sel, c, st.turn_count⟩], st.turn_count + 1, some sel,
      st.terminated⟩

/-- Response part of a turn for an already-selected index: no eligible
speaker is a SelectionError, a failed responder (retry budget 0, per
the spec scenario) terminates with reason responder-error, otherwise
the produced message is appended. -/
def produceStep (ps : List Participant) (st : ConversationState) (sel : Nat) : StepOutcome :=
  match ps[sel]? with
  | none => .halt ⟨st.transcript, st.turn_count, st.last_speaker, true⟩ "selection-error"
  | some p =>
    match p.respond st.transcript with
    | Except.error _ =>
        .halt ⟨st.transcript, st.turn_count, st.last_speaker, true⟩ "responder-error"
    | Except.ok c => appendOutcome ps st sel c

/-- Modelled from the spec (section 4.3): one full turn of the loop.
The turn cap is checked first (terminate with max-turns-reached when
turn_count reaches the configured maximum), then the selector picks
the next speaker, the speaker responds, the message is appended and
the stop predicates are evaluated. -/
def turnStep (ps : List Participant) (maxTurns : Nat) (st : ConversationState) : StepOutcome :=
  if maxTurns ≤ st.turn_count then
    .halt ⟨st.transcript, st.turn_count, st.last_speaker, true⟩ "max-turns-reached"
  else
    produceStep ps st (roundRobinSelect ps.length st.turn_count st.last_speaker)

/-- Iterate the turn loop; the fuel argument is an upper bound on the
number of remaining turns, used only to exhibit termination. -/
def runFrom (ps : List Participant) (maxTurns : Nat) :
    Nat → ConversationState → ConversationState × String
  | 0, st => (⟨st.transcript, st.turn_count, st.last_speaker, true⟩, "fuel-exhausted")
  | fuel + 1, st =>
    match turnStep ps maxTurns st with
    | .halt st' r => (st', r)
    | .next st' => runFrom ps maxTurns fuel st'

/-- Modelled from the spec (section 4.3): run the whole conversation
from the empty state.  maxTurns + 1 units of fuel always suffice since
every continuing turn increments turn_count and the cap halts the
loop. -/
def runLoop (ps : List Participant) (maxTurns : Nat) : ConversationState × String :=
  runFrom ps maxTurns (maxTurns + 1) initState

/-- Modelled from the spec (section 4.2, fixed pipeline): stage k of the
pipeline acts at turn k, one stage per completed task; when the stages
are exhausted the loop ends with reason pipeline-complete (mirrors the
planner-then-writer crew of crewai_agent.py lines 49-56). -/
def pipelineStep (stages : List Participant) (st : ConversationState) : StepOutcome :=
  match stages[st.turn_count]? with
  | none => .halt ⟨st.transcript, st.turn_count, st.last_speaker, true⟩ "pipeline-complete"
  | some p =>
    match p.respond st.transcript with
    | Except.error _ =>
        .halt ⟨st.transcript, st.turn_count, st.last_speaker, true⟩ "responder-error"
    | Except.ok c =>
        .next ⟨st.transcript ++ [⟨st.turn_count, c, st.turn_count⟩], st.turn_count + 1,
          some st.turn_count, st.terminated⟩

/-- Iterate the fixed pipeline with fuel, as for runFrom. -/
def runPipelineFrom (stages : List Participant) :
    Nat → ConversationState → ConversationState × String
  | 0, st => (⟨st.transcript, st.turn_count, st.last_speaker, true⟩, "fuel-exhausted")
  | fuel + 1, st =>
    match pipelineStep stages st with
    | .halt st' r => (st', r)
    | .next st' => runPipelineFrom stages fuel st'

/-- Run the fixed pipeline from the empty state. -/
def runPipeline (stages : List Participant) : ConversationState × String :=
  runPipelineFrom stages (stages.length + 1) initState

/-- Modelled from the spec: the states a conversation driven by turnStep
can reach, including the final state of a halting turn. -/
inductive Reachable (ps : List Participant) (maxTurns : Nat) : ConversationState → Prop
  | init : Reachable ps maxTurns initState
  | next {st st'} : Reachable ps maxTurns st → turnStep ps maxTurns st = .next st' →
      Reachable ps maxTurns st'
  | halt {st st' r} : Reachable ps maxTurns st → turnStep ps maxTurns st = .halt st' r →
      Reachable ps maxTurns st'

/- ===================================================================
   Concrete configurations from the scripts, with the LLM responders
   abstracted as stubs (the scripts delegate them to the hosted API).
   =================================================================== -/

/-- The Admin participant of autogen_groupchat.py lines 20-29: carries
the is_termination_msg stop predicate; its responder is a stub. -/
def demoAdmin : Participant :=
  ⟨"Admin", fun _ => Except.ok "ok", some (fun c => is_termination_msg (some c))⟩

/-- The Coder assistant of autogen_groupchat.py lines 31-35 (no stop
predicate), responder stubbed. -/
def demoCoder : Participant := ⟨"Coder", fun _ => Except.ok "ok", none⟩

/-- The Critic assistant of autogen_groupchat.py lines 37-41 (no stop
predicate), responder stubbed. -/
def demoCritic : Participant := ⟨"Critic", fun _ => Except.ok "ok", none⟩

/-- The three-participant group of autogen_groupchat.py lines 43-48
(agents = Admin, Coder, Critic and max_round = 7). -/
def demoAgents : List Participant := [demoAdmin, demoCoder, demoCritic]

/-- A variant Admin whose stubbed responder signals termination, so the
is_termination_msg predicate fires on its message. -/
def fireAdmin : Participant :=
  ⟨"Admin", fun _ => Except.ok "done TERMINATE", some (fun c => is_termination_msg (some c))⟩

/-- The group with the terminating Admin. -/
def fireAgents : List Participant := [fireAdmin, demoCoder, demoCritic]

/-- An Admin whose responder fails with a network error. -/
def errAdmin : Participant :=
  ⟨"Admin", fun _ => Except.error "network error", some (fun c => is_termination_msg (some c))⟩

/-- The group with the failing Admin. -/
def errAgents : List Participant := [errAdmin, demoCoder, demoCritic]

/-- The Planner stage of crewai_agent.py lines 12-20, responder
stubbed. -/
def demoPlanner : Participant := ⟨"Content Planner", fun _ => Except.ok "plan", none⟩

/-- The Writer stage of crewai_agent.py lines 22-30, responder
stubbed. -/
def demoWriter : Participant := ⟨"Content Writer", fun _ => Except.ok "post", none⟩

/- ===================================================================
   Helper lemmas about the selector and one turn of the loop
   =================================================================== -/

theorem roundRobinSelect_lt (n turn : Nat) (last : Option Nat) (hn : 0 < n) :
    roundRobinSelect n turn last < n := by
  unfold roundRobinSelect
  split
  · exact Nat.mod_lt _ hn
  · exact Nat.mod_lt _ hn

theorem roundRobinSelect_ne_last (n turn i : Nat) (hn : 2 ≤ n) :
    roundRobinSelect n turn (some i) ≠ i := by
  have hlt : turn % n < n := Nat.mod_lt _ (show 0 < n by omega)
  unfold roundRobinSelect
  by_cases h : (some i : Option Nat) = some (turn % n)
  · rw [if_pos h]
    have hi : i = turn % n := Option.some.inj h
    intro habs
    rcases Nat.lt_or_ge (turn % n + 1) n with h1 | h1
    · rw [Nat.mod_eq_of_lt h1] at habs
      omega
    · have h2 : turn % n + 1 = n := by omega
      rw [h2, Nat.mod_self] at habs
      omega
  · rw [if_neg h]
    intro habs
    exact h (by rw [habs])

/-- Inversion for a continuing turn: the loop appended exactly one
message by the selected speaker, incremented the turn count, and
preserved the terminated flag. -/
theorem turnStep_next_inv {ps : List Participant} {maxTurns : Nat}
    {st st' : ConversationState} (h : turnStep ps maxTurns st = .next st') :
    ∃ c p,
      st' = ⟨st.transcript ++
              [⟨roundRobinSelect ps.length st.turn_count st.last_speaker, c, st.turn_count⟩],
             st.turn_count + 1,
             some (roundRobinSelect ps.length st.turn_count st.last_speaker),
             st.terminated⟩ ∧
      st.turn_count < maxTurns ∧
      ps[roundRobinSelect ps.length st.turn_count st.last_speaker]? = some p ∧
      p.respond st.transcript = Except.ok c ∧
      anyStop ps c = false := by
  unfold turnStep at h
  split at h
  · simp at h
  · next hlt =>
    unfold produceStep at h
    split at h
    · simp at h
    · next p hget =>
      split at h
      · simp at h
      · next c hresp =>
        unfold appendOutcome at h
        split at h
        · simp at h
        · next hstop =>
          refine ⟨c, p, ?_, by omega, hget, hresp, by simpa using hstop⟩
          exact (StepOutcome.next.inj h).symm

/-- Inversion for a halting turn: the four terminal reasons and the
final state each produces. -/
theorem turnStep_halt_inv {ps : List Participant} {maxTurns : Nat}
    {st st' : ConversationState} {r : String}
    (h : turnStep ps maxTurns st = .halt st' r) :
    (r = "max-turns-reached" ∧ maxTurns ≤ st.turn_count ∧
      st' = ⟨st.transcript, st.turn_count, st.last_speaker, true⟩) ∨
    (r = "selection-error" ∧ st.turn_count < maxTurns ∧
      st' = ⟨st.transcript, st.turn_count, st.last_speaker, true⟩) ∨
    (r = "responder-error" ∧ st.turn_count < maxTurns ∧
      st' = ⟨st.transcript, st.turn_count, st.last_speaker, true⟩) ∨
    (∃ c,
      r = "stop-predicate" ∧ st.turn_count < maxTurns ∧ anyStop ps c = true ∧
      st' = ⟨st.transcript ++
              [⟨roundRobinSelect ps.length st.turn_count st.last_speaker, c, st.turn_count⟩],
             st.turn_count + 1,
             some (roundRobinSelect ps.length st.turn_count st.last_speaker),
             true⟩) := by
  unfold turnStep at h
  split at h
  · next hle =>
    left
    obtain ⟨h1, h2⟩ := StepOutcome.halt.inj h
    exact ⟨h2.symm, hle, h1.symm⟩
  · next hlt =>
    unfold produceStep at h
    split at h
    · obtain ⟨h1, h2⟩ := StepOutcome.halt.inj h
      right; left
      exact ⟨h2.symm, by omega, h1.symm⟩
    · next p hget =>
      split at h
      · obtain ⟨h1, h2⟩ := StepOutcome.halt.inj h
        right; right; left
        exact ⟨h2.symm, by omega, h1.symm⟩
      · next c hresp =>
        unfold appendOutcome at h
        split at h
        · next hstop =>
          obtain ⟨h1, h2⟩ := StepOutcome.halt.inj h
          right; right; right
          exact ⟨c, h2.symm, by omega, by simpa using hstop, h1.symm⟩
        · simp at h


/- Small evaluation lemmas for one turn. -/

theorem turnStep_maxed {ps : List Participant} {maxTurns : Nat} {st : ConversationState}
    (hle : maxTurns ≤ st.turn_count) :
    turnStep ps maxTurns st =
      .halt ⟨st.transcript, st.turn_count, st.last_speaker, true⟩ "max-turns-reached" := by
  unfold turnStep
  rw [if_pos hle]

theorem turnStep_live {ps : List Participant} {maxTurns : Nat} {st : ConversationState}
    (hlt : st.turn_count < maxTurns) :
    turnStep ps maxTurns st =
      produceStep ps st (roundRobinSelect ps.length st.turn_count st.last_speaker) := by
  unfold turnStep
  rw [if_neg (Nat.not_le.mpr hlt)]

theorem produceStep_ok {ps : List Participant} {st : ConversationState} {sel : Nat}
    {p : Participant} {c : String} (hget : ps[sel]? = some p)
    (hc : p.respond st.transcript = Except.ok c) :
    produceStep ps st sel = appendOutcome ps st sel c := by
  simp only [produceStep, hget, hc]

theorem produceStep_err {ps : List Participant} {st : ConversationState} {sel : Nat}
    {p : Participant} {e : String} (hget : ps[sel]? = some p)
    (hc : p.respond st.transcript = Except.error e) :
    produceStep ps st sel =
      .halt ⟨st.transcript, st.turn_count, st.last_speaker, true⟩ "responder-error" := by
  simp only [produceStep, hget, hc]

theorem appendOutcome_fire {ps : List Participant} {st : ConversationState} {sel : Nat}
    {c : String} (h : anyStop ps c = true) :
    appendOutcome ps st sel c =
      .halt ⟨st.transcript ++ [⟨sel, c, st.turn_count⟩], st.turn_count + 1, some sel, true⟩
        "stop-predicate" := by
  unfold appendOutcome
  rw [if_pos h]

theorem appendOutcome_cont {ps : List Participant} {st : ConversationState} {sel : Nat}
    {c : String} (h : anyStop ps c = false) :
    appendOutcome ps st sel c =
      .next ⟨st.transcript ++ [⟨sel, c, st.turn_count⟩], st.turn_count + 1, some sel,
        st.terminated⟩ := by
  unfold appendOutcome
  rw [h]
  simp

theorem runFrom_halt_eq {ps : List Participant} {maxTurns : Nat} {st st' : ConversationState}
    {r : String} (fuel : Nat) (h : turnStep ps maxTurns st = .halt st' r) :
    runFrom ps maxTurns (fuel + 1) st = (st', r) := by
  conv_lhs => unfold runFrom
  rw [h]

theorem runFrom_next_eq {ps : List Participant} {maxTurns : Nat} {st st' : ConversationState}
    (fuel : Nat) (h : turnStep ps maxTurns st = .next st') :
    runFrom ps maxTurns (fuel + 1) st = runFrom ps maxTurns fuel st' := by
  conv_lhs => unfold runFrom
  rw [h]

/-- The turn count of the final state never exceeds the configured
maximum, provided it does not already. -/
theorem runFrom_turn_le (ps : List Participant) (maxTurns : Nat) :
    ∀ fuel st, st.turn_count ≤ maxTurns →
      (runFrom ps maxTurns fuel st).1.turn_count ≤ maxTurns := by
  intro fuel
  induction fuel with
  | zero =>
    intro st h
    simpa [runFrom] using h
  | succ f ih =>
    intro st h
    cases hstep : turnStep ps maxTurns st with
    | halt st' r =>
      rw [runFrom_halt_eq f hstep]
      rcases turnStep_halt_inv hstep with ⟨_, _, rfl⟩ | ⟨_, _, rfl⟩ | ⟨_, _, rfl⟩ |
        ⟨c, _, hlt, _, rfl⟩
      · exact h
      · exact h
      · exact h
      · simpa using hlt
    | next st' =>
      rw [runFrom_next_eq f hstep]
      obtain ⟨c, p, rfl, hlt, _, _, _⟩ := turnStep_next_inv hstep
      exact ih _ (by simpa using hlt)

/-- The final transcript extends the transcript the run started from:
the loop is append-only. -/
theorem runFrom_transcript_extends (ps : List Participant) (maxTurns : Nat) :
    ∀ fuel st, ∃ ms, (runFrom ps maxTurns fuel st).1.transcript = st.transcript ++ ms := by
  intro fuel
  induction fuel with
  | zero =>
    intro st
    exact ⟨[], by simp [runFrom]⟩
  | succ f ih =>
    intro st
    cases hstep : turnStep ps maxTurns st with
    | halt st' r =>
      rw [runFrom_halt_eq f hstep]
      rcases turnStep_halt_inv hstep with ⟨_, _, rfl⟩ | ⟨_, _, rfl⟩ | ⟨_, _, rfl⟩ |
        ⟨c, _, _, _, rfl⟩
      · exact ⟨[], by simp⟩
      · exact ⟨[], by simp⟩
      · exact ⟨[], by simp⟩
      · exact ⟨_, rfl⟩
    | next st' =>
      rw [runFrom_next_eq f hstep]
      obtain ⟨ms, hms⟩ := ih st'
      obtain ⟨c, p, hshape, _, _, _, _⟩ := turnStep_next_inv hstep
      refine ⟨⟨roundRobinSelect ps.length st.turn_count st.last_speaker, c,
        st.turn_count⟩ :: ms, ?_⟩
      rw [hms, hshape]
      simp

/-- If the group is non-empty, every responder always succeeds, and no
stop predicate fires on any message of the final transcript, then a run
given enough fuel to reach the cap ends with reason max-turns-reached. -/
theorem runFrom_max_turns (ps : List Participant) (maxTurns : Nat)
    (hne : 0 < ps.length)
    (hresp : ∀ p ∈ ps, ∀ t, ∃ c, p.respond t = Except.ok c) :
    ∀ fuel st, st.turn_count ≤ maxTurns → maxTurns < st.turn_count + fuel →
      (∀ m ∈ (runFrom ps maxTurns fuel st).1.transcript, anyStop ps m.content = false) →
      (runFrom ps maxTurns fuel st).2 = "max-turns-reached" := by
  intro fuel
  induction fuel with
  | zero =>
    intro st h1 h2 _
    omega
  | succ f ih =>
    intro st h1 h2 hnofire
    by_cases hle : maxTurns ≤ st.turn_count
    · rw [runFrom_halt_eq f (turnStep_maxed hle)]
    · have hlt : st.turn_count < maxTurns := by omega
      have hsel : roundRobinSelect ps.length st.turn_count st.last_speaker < ps.length :=
        roundRobinSelect_lt _ _ _ hne
      have hget : ps[roundRobinSelect ps.length st.turn_count st.last_speaker]? =
          some ps[roundRobinSelect ps.length st.turn_count st.last_speaker] :=
        List.getElem?_eq_getElem hsel
      obtain ⟨c, hc⟩ := hresp _ (List.getElem_mem hsel) st.transcript
      by_cases hstop : anyStop ps c = true
      · have hstep : turnStep ps maxTurns st =
            .halt ⟨st.transcript ++
                    [⟨roundRobinSelect ps.length st.turn_count st.last_speaker, c,
                      st.turn_count⟩],
                   st.turn_count + 1,
                   some (roundRobinSelect ps.length st.turn_count st.last_speaker), true⟩
              "stop-predicate" := by
          rw [turnStep_live hlt, produceStep_ok hget hc, appendOutcome_fire hstop]
        rw [runFrom_halt_eq f hstep] at hnofire ⊢
        exfalso
        have hmem : (⟨roundRobinSelect ps.length st.turn_count st.last_speaker, c,
            st.turn_count⟩ : Message) ∈
            st.transcript ++
              [⟨roundRobinSelect ps.length st.turn_count st.last_speaker, c,
                st.turn_count⟩] := by
          simp
        have hfalse := hnofire _ hmem
        simp only at hfalse
        rw [hstop] at hfalse
        exact Bool.noConfusion hfalse
      · have hstop' : anyStop ps c = false := by
          simpa using hstop
        have hstep : turnStep ps maxTurns st =
            .next ⟨st.transcript ++
                    [⟨roundRobinSelect ps.length st.turn_count st.last_speaker, c,
                      st.turn_count⟩],
                   st.turn_count + 1,
                   some (roundRobinSelect ps.length st.turn_count st.last_speaker),
                   st.terminated⟩ := by
          rw [turnStep_live hlt, produceStep_ok hget hc, appendOutcome_cont hstop']
        rw [runFrom_next_eq f hstep] at hnofire ⊢
        exact ih _ (by simp; omega) (by simp; omega) hnofire

/-- Transcript length always equals the turn count in every reachable
state. -/
theorem reachable_length {ps : List Participant} {maxTurns : Nat} {st : ConversationState}
    (h : Reachable ps maxTurns st) : st.transcript.length = st.turn_count := by
  induction h with
  | init => rfl
  | next hr hstep ih =>
    obtain ⟨c, p, rfl, _, _, _, _⟩ := turnStep_next_inv hstep
    simp [ih]
  | halt hr hstep ih =>
    rcases turnStep_halt_inv hstep with ⟨_, _, rfl⟩ | ⟨_, _, rfl⟩ | ⟨_, _, rfl⟩ |
      ⟨c, _, _, _, rfl⟩
    · exact ih
    · exact ih
    · exact ih
    · simp [ih]

/-- The invariant backing the no-immediate-repeat property: adjacent
transcript messages have distinct senders, and last_speaker records the
sender of the last appended message (none exactly on the empty
transcript). -/
def NoRepeatInv (st : ConversationState) : Prop :=
  List.Chain' (fun a b => a.sender ≠ b.sender) st.transcript ∧
  (st.last_speaker = none → st.transcript = []) ∧
  (∀ i, st.last_speaker = some i → st.transcript.getLast?.map Message.sender = some i)

/-- Appending the round-robin speaker's message preserves NoRepeatInv
when at least two participants exist. -/
theorem noRepeatInv_append {ps : List Participant} {st : ConversationState} {c : String}
    {b : Bool} (hn : 2 ≤ ps.length) (inv : NoRepeatInv st) :
    NoRepeatInv ⟨st.transcript ++
        [⟨roundRobinSelect ps.length st.turn_count st.last_speaker, c, st.turn_count⟩],
      st.turn_count + 1,
      some (roundRobinSelect ps.length st.turn_count st.last_speaker), b⟩ := by
  obtain ⟨hchain, hnone, hsome⟩ := inv
  cases hls : st.last_speaker with
  | none =>
    have ht : st.transcript = [] := hnone hls
    refine ⟨?_, ?_, ?_⟩
    · rw [ht]
      simp
    · intro habs
      simp at habs
    · intro i hi
      rw [ht]
      simp only [List.nil_append, List.getLast?_singleton, Option.map_some]
      simpa using hi
  | some j =>
    obtain ⟨lastm, hget, hsender⟩ := Option.map_eq_some.mp (hsome j hls)
    refine ⟨?_, ?_, ?_⟩
    · refine List.chain'_append.mpr ⟨hchain, by simp, ?_⟩
      intro x hx y hy
      have hx' : lastm = x := by
        rw [hget] at hx
        simpa using hx
      have hy' : (⟨roundRobinSelect ps.length st.turn_count (some j), c,
          st.turn_count⟩ : Message) = y := by
        simpa using hy
      rw [← hx', ← hy', hsender]
      exact (roundRobinSelect_ne_last ps.length st.turn_count j hn).symm
    · intro habs
      simp at habs
    · intro i hi
      rw [List.getLast?_concat]
      simpa using hi

/-- Every reachable state satisfies NoRepeatInv when at least two
participants exist. -/
theorem reachable_noRepeat {ps : List Participant} {maxTurns : Nat} {st : ConversationState}
    (hn : 2 ≤ ps.length) (h : Reachable ps maxTurns st) : NoRepeatInv st := by
  induction h with
  | init =>
    refine ⟨by simp [initState], fun _ => rfl, fun i hi => by simp [initState] at hi⟩
  | next hr hstep ih =>
    obtain ⟨c, p, rfl, _, _, _, _⟩ := turnStep_next_inv hstep
    exact noRepeatInv_append hn ih
  | halt hr hstep ih =>
    rcases turnStep_halt_inv hstep with ⟨_, _, rfl⟩ | ⟨_, _, rfl⟩ | ⟨_, _, rfl⟩ |
      ⟨c, _, _, _, rfl⟩
    · exact ⟨ih.1, fun h => ih.2.1 h, fun i hi => ih.2.2 i hi⟩
    · exact ⟨ih.1, fun h => ih.2.1 h, fun i hi => ih.2.2 i hi⟩
    · exact ⟨ih.1, fun h => ih.2.1 h, fun i hi => ih.2.2 i hi⟩
    · exact noRepeatInv_append hn ih

/- ===================================================================
   Theorems for the loop claims: C1, C3, C4, C7, C8, C9
   =================================================================== -/

/-- C1: with the configured maximum of 7 turns, every run of the
group-chat loop terminates with final turn_count at most 7, and if the
group is non-empty, the responders succeed, and no stop predicate ever
fires on a message of the run, the terminal reason is
max-turns-reached. -/
theorem groupchat_max_turns_bound (ps : List Participant) :
    (runLoop ps 7).1.turn_count ≤ 7 ∧
    (0 < ps.length →
      (∀ p ∈ ps, ∀ t, ∃ c, p.respond t = Except.ok c) →
      (∀ m ∈ (runLoop ps 7).1.transcript, anyStop ps m.content = false) →
      (runLoop ps 7).2 = "max-turns-reached") := by
  constructor
  · exact runFrom_turn_le ps 7 8 initState (by decide)
  · intro hne hresp hnofire
    exact runFrom_max_turns ps 7 hne hresp 8 initState (by decide) (by decide) hnofire

/-- C1 witness: the 3-participant Admin/Coder/Critic group from
autogen_groupchat.py, with stubbed responders that never signal
termination, runs to the cap with reason max-turns-reached. -/
theorem groupchat_max_turns_bound_witness :
    (runLoop demoAgents 7).1.turn_count ≤ 7 ∧
    (runLoop demoAgents 7).2 = "max-turns-reached" := by
  refine ⟨(groupchat_max_turns_bound demoAgents).1,
    (groupchat_max_turns_bound demoAgents).2 (by decide) ?_ (by decide)⟩
  intro p hp t
  simp only [demoAgents, List.mem_cons, List.not_mem_nil, or_false] at hp
  rcases hp with rfl | rfl | rfl
  · exact ⟨"ok", rfl⟩
  · exact ⟨"ok", rfl⟩
  · exact ⟨"ok", rfl⟩

/-- C3: the round-robin selector never returns the index of the
immediately preceding speaker when at least two participants exist, and
consequently no two adjacent messages of any reachable transcript have
the same sender. -/
theorem roundrobin_no_immediate_repeat :
    (∀ n turn i, 2 ≤ n → roundRobinSelect n turn (some i) ≠ i) ∧
    (∀ (ps : List Participant) (maxTurns : Nat) (st : ConversationState),
      2 ≤ ps.length → Reachable ps maxTurns st →
      List.Chain' (fun a b => a.sender ≠ b.sender) st.transcript) := by
  constructor
  · intro n turn i hn
    exact roundRobinSelect_ne_last n turn i hn
  · intro ps maxTurns st hn hr
    exact (reachable_noRepeat hn hr).1

/-- C3 witness: the selector refuses to repeat speaker 0 at turn 0 of
the demo group, and the transcript reached after two turns alternates
senders. -/
theorem roundrobin_no_immediate_repeat_witness :
    roundRobinSelect 3 0 (some 0) ≠ 0 ∧
    List.Chain' (fun a b => a.sender ≠ b.sender)
      (ConversationState.mk [⟨0, "ok", 0⟩, ⟨1, "ok", 1⟩] 2 (some 1) false).transcript := by
  have h1 : Reachable demoAgents 7 (ConversationState.mk [⟨0, "ok", 0⟩] 1 (some 0) false) :=
    Reachable.next Reachable.init (by decide)
  have h2 : Reachable demoAgents 7
      (ConversationState.mk [⟨0, "ok", 0⟩, ⟨1, "ok", 1⟩] 2 (some 1) false) :=
    Reachable.next h1 (by decide)
  exact ⟨roundrobin_no_immediate_repeat.1 3 0 0 (by decide),
    roundrobin_no_immediate_repeat.2 demoAgents 7
      (ConversationState.mk [⟨0, "ok", 0⟩, ⟨1, "ok", 1⟩] 2 (some 1) false)
      (by decide) h2⟩

/-- C7: each accepted (continuing) turn increments turn_count by
exactly one, appends exactly one message (one participant acts), and
never resets the terminated flag; a halting turn appends at most one
message and leaves the loop terminated; and every reachable state has
transcript length equal to turn_count with the transcript extended
append-only. -/
theorem conversation_state_invariants :
    (∀ (ps : List Participant) (maxTurns : Nat) (st st' : ConversationState),
      turnStep ps maxTurns st = .next st' →
        st'.turn_count = st.turn_count + 1 ∧
        (∃ m, st'.transcript = st.transcript ++ [m]) ∧
        (st.terminated = true → st'.terminated = true)) ∧
    (∀ (ps : List Participant) (maxTurns : Nat) (st st' : ConversationState) (r : String),
      turnStep ps maxTurns st = .halt st' r →
        (∃ ms, st'.transcript = st.transcript ++ ms ∧ ms.length ≤ 1) ∧
        st'.terminated = true) ∧
    (∀ (ps : List Participant) (maxTurns : Nat) (st : ConversationState),
      Reachable ps maxTurns st → st.transcript.length = st.turn_count) := by
  refine ⟨?_, ?_, ?_⟩
  · intro ps maxTurns st st' h
    obtain ⟨c, p, rfl, _, _, _, _⟩ := turnStep_next_inv h
    exact ⟨rfl, ⟨_, rfl⟩, fun ht => ht⟩
  · intro ps maxTurns st st' r h
    rcases turnStep_halt_inv h with ⟨_, _, rfl⟩ | ⟨_, _, rfl⟩ | ⟨_, _, rfl⟩ |
      ⟨c, _, _, _, rfl⟩
    · exact ⟨⟨[], by simp⟩, rfl⟩
    · exact ⟨⟨[], by simp⟩, rfl⟩
    · exact ⟨⟨[], by simp⟩, rfl⟩
    · exact ⟨⟨_, rfl, by simp⟩, rfl⟩
  · intro ps maxTurns st hr
    exact reachable_length hr

/-- C7 witness: the first turn of the demo group increments the turn
count from 0 to 1, appends one message, and preserves the (false)
terminated flag. -/
theorem conversation_state_invariants_witness :
    (ConversationState.mk [⟨0, "ok", 0⟩] 1 (some 0) false).turn_count =
      initState.turn_count + 1 ∧
    (∃ m, (ConversationState.mk [⟨0, "ok", 0⟩] 1 (some 0) false).transcript =
      initState.transcript ++ [m]) ∧
    (initState.terminated = true →
      (ConversationState.mk [⟨0, "ok", 0⟩] 1 (some 0) false).terminated = true) :=
  conversation_state_invariants.1 demoAgents 7 initState
    (ConversationState.mk [⟨0, "ok", 0⟩] 1 (some 0) false) (by decide)

/-- C8: when the selected participant's message fires some stop
predicate at turn count k (below the cap), the run halts immediately
with reason stop-predicate: the final turn count is k + 1 and the final
transcript is the old one plus exactly that message - no turn k + 1 is
ever produced. -/
theorem stop_predicate_halts_loop (ps : List Participant) (maxTurns fuel : Nat)
    (st : ConversationState) (p : Participant) (c : String)
    (hlt : st.turn_count < maxTurns)
    (hget : ps[roundRobinSelect ps.length st.turn_count st.last_speaker]? = some p)
    (hresp : p.respond st.transcript = Except.ok c)
    (hfire : anyStop ps c = true) :
    runFrom ps maxTurns (fuel + 1) st =
      (⟨st.transcript ++
          [⟨roundRobinSelect ps.length st.turn_count st.last_speaker, c, st.turn_count⟩],
        st.turn_count + 1,
        some (roundRobinSelect ps.length st.turn_count st.last_speaker), true⟩,
       "stop-predicate") := by
  exact runFrom_halt_eq fuel
    (by rw [turnStep_live hlt, produceStep_ok hget hresp, appendOutcome_fire hfire])

/-- C8 witness: with the terminating Admin stub, the run ends on turn 1
with reason stop-predicate and exactly the firing message appended. -/
theorem stop_predicate_halts_loop_witness :
    runFrom fireAgents 7 7 initState =
      (⟨[⟨0, "done TERMINATE", 0⟩], 1, some 0, true⟩, "stop-predicate") := by
  exact stop_predicate_halts_loop fireAgents 7 6 initState fireAdmin "done TERMINATE"
    (by decide) rfl rfl (by decide)

/-- C9: when the selected participant's response call fails (the spec
scenario with retry budget 0), the run halts with reason
responder-error and the transcript is unchanged from before the failed
turn. -/
theorem responder_error_halts_loop (ps : List Participant) (maxTurns fuel : Nat)
    (st : ConversationState) (p : Participant) (e : String)
    (hlt : st.turn_count < maxTurns)
    (hget : ps[roundRobinSelect ps.length st.turn_count st.last_speaker]? = some p)
    (hresp : p.respond st.transcript = Except.error e) :
    runFrom ps maxTurns (fuel + 1) st =
      (⟨st.transcript, st.turn_count, st.last_speaker, true⟩, "responder-error") := by
  exact runFrom_halt_eq fuel (by rw [turnStep_live hlt, produceStep_err hget hresp])

/-- C9 witness: the group whose Admin responder fails with a network
error halts at once with reason responder-error and an empty (hence
unchanged) transcript. -/
theorem responder_error_halts_loop_witness :
    runFrom errAgents 7 7 initState = (⟨[], 0, none, true⟩, "responder-error") := by
  exact responder_error_halts_loop errAgents 7 6 initState errAdmin "network error"
    (by decide) rfl rfl

/-- C4: the two-stage Planner/Writer pipeline of crewai_agent.py, with
one task per stage, completes in exactly 2 turns with terminal reason
pipeline-complete; stage k acts exactly at turn k, so the stage
sequence is 0 then 1 - one stage per completed task, never revisiting a
prior stage. -/
theorem crew_pipeline_two_stage (p₀ p₁ : Participant) (c₀ c₁ : String)
    (h₀ : p₀.respond [] = Except.ok c₀)
    (h₁ : p₁.respond [⟨0, c₀, 0⟩] = Except.ok c₁) :
    runPipeline [p₀, p₁] =
      (⟨[⟨0, c₀, 0⟩, ⟨1, c₁, 1⟩], 2, some 1, true⟩, "pipeline-complete") ∧
    (runPipeline [p₀, p₁]).1.transcript.map Message.sender = [0, 1] := by
  have hrun : runPipeline [p₀, p₁] =
      (⟨[⟨0, c₀, 0⟩, ⟨1, c₁, 1⟩], 2, some 1, true⟩, "pipeline-complete") := by
    simp [runPipeline, runPipelineFrom, pipelineStep, initState, h₀, h₁]
  refine ⟨hrun, ?_⟩
  rw [hrun]
  rfl

/-- C4 witness: the stubbed Planner and Writer stages run the pipeline
to completion in 2 turns. -/
theorem crew_pipeline_two_stage_witness :
    runPipeline [demoPlanner, demoWriter] =
      (⟨[⟨0, "plan", 0⟩, ⟨1, "post", 1⟩], 2, some 1, true⟩, "pipeline-complete") ∧
    (runPipeline [demoPlanner, demoWriter]).1.transcript.map Message.sender = [0, 1] := by
  exact crew_pipeline_two_stage demoPlanner demoWriter "plan" "post" rfl rfl
